import Mathlib

/-!
Shallow embedding of the assistant bot's core components:

* `gemini_service.py` — the tool-augmented conversation loop
  (`GeminiService.get_gemini_response_with_tools`) and the retrying HTTP
  client (`GeminiService._call_gemini_api`);
* `tool_manager.py` — tool dispatch (`ToolManager.execute_tool`);
* `conversation_manager.py` — the per-user session store
  (`ConversationManager.get_history` / `update_history` / `reset_history`);
* `telegram_bot_app.py` — the per-turn pipeline (`TelegramBotApp.handle_message`).

Python dicts holding chat messages become Lean structures; `datetime.now()`
becomes an explicit rational-valued time parameter measured in minutes, so the
idle-expiry comparison `now - last_active > timedelta(minutes=lifetime)`
becomes `lifetime < now - lastActive`.  Falsy-vs-truthy `.get(...)` checks on
response dicts are modelled with `Option` (a missing key or a falsy value such
as an empty dict maps to `none`; a present-but-empty string keeps its own
check, mirroring Python truthiness of strings).
-/

/-- Text content of a history part.  The system-context prompt embeds the
current timestamp (ISO-8601, seconds resolution) into its text, so prompts
generated at distinct times are distinct strings; `sysPromptAt` carries that
timestamp abstractly, and constructor injectivity models injectivity of the
generated string in the timestamp. -/
inductive MText where
  | plain : String → MText
  | sysPromptAt : ℚ → MText
deriving DecidableEq

/-- Argument mapping of a tool call (string keys; values modelled as strings,
nothing in the code inspects them). -/
abbrev ArgsMap := List (String × String)

/-- A `functionCall` payload: `name` plus an `args` mapping
(`function_call['name']`, `function_call.get('args', {})`). -/
structure FunctionCall where
  name : String
  args : ArgsMap
deriving DecidableEq

/-- One element of a history message's `parts` list. -/
inductive PartVal where
  | text : MText → PartVal
  | functionCallPart : FunctionCall → PartVal
  | functionResponsePart : String → String → PartVal
deriving DecidableEq

/-- One history entry: a dict with `role` and `parts`. -/
structure ChatMsg where
  role : String
  parts : List PartVal
deriving DecidableEq

/-- One part of a Gemini response candidate's content.  `functionCall = none`
models a missing (or falsy) `functionCall` key; likewise for `text`, except
that an empty string is kept and its falsiness handled where the code tests
it. -/
structure RespPart where
  functionCall : Option FunctionCall
  text : Option String
deriving DecidableEq

/-- A candidate's `content` dict: its `parts` list (`[]` models a missing or
falsy `parts` value). -/
structure Content where
  parts : List RespPart
deriving DecidableEq

/-- One element of the response's `candidates` list; `content = none` models a
missing or falsy `content` value. -/
structure Candidate where
  content : Option Content
deriving DecidableEq

/-- A parsed Gemini API response body; `candidates = []` models a missing or
falsy `candidates` value. -/
structure GeminiResponse where
  candidates : List Candidate
deriving DecidableEq

/-- How the loop body of `get_gemini_response_with_tools` classifies one
response (lines 44–83 of `gemini_service.py`). -/
inductive RespKind where
  | toolCall : FunctionCall → RespKind
  | text : String → RespKind
  | malformed : RespKind
deriving DecidableEq

/-- The chained truthiness checks of lines 44–47 and 72–75: both branches look
only at `candidates[0].content.parts[0]`; the `functionCall` check wins when
both fields are present, and an empty-string `text` is falsy. -/
def classify (r : GeminiResponse) : RespKind :=
  match r.candidates with
  | [] => .malformed
  | c :: _ =>
    match c.content with
    | none => .malformed
    | some ct =>
      match ct.parts with
      | [] => .malformed
      | p :: _ =>
        match p.functionCall with
        | some fc => .toolCall fc
        | none =>
          match p.text with
          | none => .malformed
          | some s => if s = "" then .malformed else .text s

/-- Message when `_call_gemini_api` returns a falsy value (line 38). -/
def emptyResponseMsg : String := "Извините, не удалось получить ответ от ИИ."

/-- Message for a response that is neither a tool call nor text (line 82). -/
def unintelligibleMsg : String := "Извините, ИИ вернул непонятный ответ."

/-- Message when an exception escapes the loop body (line 87). -/
def internalErrorMsg : String := "Произошла внутренняя ошибка при обработке запроса к ИИ."

/-- Fallback when the loop exhausts `max_tool_call_iterations` (line 91). -/
def maxIterationsMsg : String :=
  "Извините, я не смог завершить обработку вашего запроса после нескольких попыток использования инструментов."

/-- Default of the final `or` expression (line 93). -/
def noFinalAnswerMsg : String := "Извините, не удалось получить окончательный ответ от ИИ."

/-- Effect of one `_call_gemini_api` call as seen by the loop: it either
raises (caught at line 85) or returns a possibly-falsy response dict. -/
inductive BackendEff where
  | raises : BackendEff
  | returns : Option GeminiResponse → BackendEff

/-- The model-role tool-call entry appended at lines 56–59. -/
def modelFunctionCallMsg (fc : FunctionCall) : ChatMsg :=
  ⟨"model", [.functionCallPart fc]⟩

/-- The function-role tool-result entry appended at lines 65–68. -/
def functionResponseMsg (name output : String) : ChatMsg :=
  ⟨"function", [.functionResponsePart name output]⟩

/-- The `for iteration in range(max_tool_call_iterations)` loop of lines
32–91.  `fuel` is the number of remaining iterations, `calls` the number of
backend calls already made (the backend stub is indexed by it), `hist` the
working copy `current_chat_history`.  Returns the assigned
`gemini_response_content` together with the total number of backend calls;
the `for`/`else` clause (fuel exhausted without `break`) yields the
fallback message. -/
def engineLoop (backend : ℕ → List ChatMsg → BackendEff)
    (toolExec : FunctionCall → String) :
    ℕ → ℕ → List ChatMsg → String × ℕ
  | 0, calls, _ => (maxIterationsMsg, calls)
  | fuel + 1, calls, hist =>
    match backend calls hist with
    | .raises => (internalErrorMsg, calls + 1)
    | .returns none => (emptyResponseMsg, calls + 1)
    | .returns (some r) =>
      match classify r with
      | .toolCall fc =>
        engineLoop backend toolExec fuel (calls + 1)
          (hist ++ [modelFunctionCallMsg fc, functionResponseMsg fc.name (toolExec fc)])
      | .text t => (t, calls + 1)
      | .malformed => (unintelligibleMsg, calls + 1)

/-- Method `GeminiService.get_gemini_response_with_tools` (lines 23–93): runs the
loop on a copy of the given history and applies the final
`gemini_response_content or "..."` default.  Returns the reply text and the
number of backend calls made. -/
def getGeminiResponseWithTools (maxIter : ℕ) (backend : ℕ → List ChatMsg → BackendEff)
    (toolExec : FunctionCall → String) (hist : List ChatMsg) : String × ℕ :=
  let out := engineLoop backend toolExec maxIter 0 hist
  (if out.1 = "" then noFinalAnswerMsg else out.1, out.2)

/-- Outcome of one `http_session.post` + `raise_for_status` + `response.json()`
round trip inside `_call_gemini_api` (lines 109–111): a parsed body
(possibly falsy), an `aiohttp.ClientResponseError` with its HTTP status, a
non-response `aiohttp.ClientError`, or a `json.JSONDecodeError`. -/
inductive HttpResult where
  | success : Option GeminiResponse → HttpResult
  | httpError : ℕ → HttpResult
  | netError : HttpResult
  | jsonError : HttpResult

/-- The exception `_call_gemini_api` re-raises to its caller. -/
inductive ApiError where
  | http : ℕ → ApiError
  | net : ApiError
  | json : ApiError
deriving DecidableEq

/-- Observable behaviour of one `_call_gemini_api` run: the value returned or
error raised, the number of HTTP calls issued, the number of `asyncio.sleep`
calls, and the total delay slept (seconds, exact arithmetic). -/
structure ApiCallTrace where
  result : Except ApiError (Option GeminiResponse)
  callCount : ℕ
  sleepCount : ℕ
  totalDelay : ℚ

/-- The `for attempt in range(gemini_max_retries)` loop of lines 107–136.
`a` is the current `attempt` index (the HTTP stub is indexed by it) and
`remaining` the number of iterations left, so the guard
`attempt < gemini_max_retries - 1` (lines 115 and 125) is `0 < r` with
`remaining = r + 1`.  Exhausting the range without returning (only possible
when `gemini_max_retries = 0`) is Python's implicit `return None`, modelled
as `.ok none`. -/
def callGeminiApiAux (http : ℕ → HttpResult) (baseDelay : ℚ) :
    ℕ → ℕ → ApiCallTrace
  | _, 0 => ⟨.ok none, 0, 0, 0⟩
  | a, r + 1 =>
    match http a with
    | .success resp => ⟨.ok resp, 1, 0, 0⟩
    | .httpError s =>
      if 500 ≤ s ∨ s = 429 then
        if 0 < r then
          let t := callGeminiApiAux http baseDelay (a + 1) r
          ⟨t.result, t.callCount + 1, t.sleepCount + 1, baseDelay * 2 ^ a + t.totalDelay⟩
        else ⟨.error (.http s), 1, 0, 0⟩
      else ⟨.error (.http s), 1, 0, 0⟩
    | .netError =>
      if 0 < r then
        let t := callGeminiApiAux http baseDelay (a + 1) r
        ⟨t.result, t.callCount + 1, t.sleepCount + 1, baseDelay * 2 ^ a + t.totalDelay⟩
      else ⟨.error .net, 1, 0, 0⟩
    | .jsonError => ⟨.error .json, 1, 0, 0⟩

/-- Method `GeminiService._call_gemini_api` (lines 95–136), starting at attempt 0
with the full retry budget. -/
def callGeminiApi (http : ℕ → HttpResult) (baseDelay : ℚ) (maxRetries : ℕ) :
    ApiCallTrace :=
  callGeminiApiAux http baseDelay 0 maxRetries

/-- Result of awaiting one underlying tool implementation: a returned string
or a raised exception carrying its description. -/
inductive ToolOutcome where
  | ok : String → ToolOutcome
  | raises : String → ToolOutcome
deriving DecidableEq

/-- The unknown-tool result of `execute_tool` (line 87 of `tool_manager.py`). -/
def unknownToolMsg (name : String) : String :=
  "Ошибка: Инструмент \x27" ++ name ++ "\x27 не найден."

/-- The caught-exception result of `execute_tool` (line 84). -/
def toolErrorMsg (name descr : String) : String :=
  "Ошибка при выполнении инструмента \x27" ++ name ++ "\x27: " ++ descr

/-- Method `ToolManager.execute_tool` (lines 73–87): look up the name in the
`_available_tools` dict (modelled as a partial map), run the implementation
inside `try`/`except Exception`, and return either the result verbatim (the
`[:100]` truncation at line 80 only feeds the log) or a textual error. -/
def executeTool (tools : String → Option (ArgsMap → ToolOutcome))
    (name : String) (args : ArgsMap) : String :=
  match tools name with
  | some f =>
    match f args with
    | .ok r => r
    | .raises e => toolErrorMsg name e
  | none => unknownToolMsg name

/-- One entry of `ConversationManager.user_conversations`:
`{'history': ..., 'last_active': ...}`. -/
structure Session where
  history : List ChatMsg
  lastActive : ℚ
deriving DecidableEq

/-- The `user_conversations` dict, as a map from user id to session. -/
abbrev ConvState := ℕ → Option Session

/-- Assignment `user_conversations[user_id] = s`. -/
def setUser (st : ConvState) (uid : ℕ) (s : Session) : ConvState :=
  fun u => if u = uid then some s else st u

/-- Method `ConversationManager._generate_system_prompt` (lines 50–68): a user-role
message whose text embeds the current timestamps. -/
def generateSystemPrompt (now : ℚ) : ChatMsg :=
  ⟨"user", [.text (.sysPromptAt now)]⟩

/-- Constant `ConversationManager.system_prompt_response` (lines 45–48). -/
def systemPromptResponse : ChatMsg :=
  ⟨"model", [.text (.plain "Привет! Я готов к общению.")]⟩

/-- Method `ConversationManager._get_initial_history` (lines 70–75). -/
def getInitialHistory (now : ℚ) : List ChatMsg :=
  [generateSystemPrompt now, systemPromptResponse]

/-- Method `ConversationManager.get_history` (lines 77–101): create a fresh session
when absent, reseed when idle beyond the lifetime, otherwise regenerate the
entry at index 0 in place (`List.set 0`; every reachable history is
nonempty); `last_active` becomes `now` on every branch, and the stored
history is also the returned one. -/
def getHistory (lifetime now : ℚ) (uid : ℕ) (st : ConvState) :
    List ChatMsg × ConvState :=
  match st uid with
  | none =>
    let h := getInitialHistory now
    (h, setUser st uid ⟨h, now⟩)
  | some sess =>
    let h :=
      if lifetime < now - sess.lastActive then getInitialHistory now
      else sess.history.set 0 (generateSystemPrompt now)
    (h, setUser st uid ⟨h, now⟩)

/-- Method `ConversationManager.update_history` (lines 103–115): append to an
existing session, or reinitialize with seed + message when the session
vanished. -/
def updateHistory (now : ℚ) (uid : ℕ) (msg : ChatMsg) (st : ConvState) :
    ConvState :=
  match st uid with
  | some sess => setUser st uid ⟨sess.history ++ [msg], now⟩
  | none => setUser st uid ⟨getInitialHistory now ++ [msg], now⟩

/-- Method `ConversationManager.reset_history` (lines 117–125). -/
def resetHistory (now : ℚ) (uid : ℕ) (st : ConvState) : ConvState :=
  setUser st uid ⟨getInitialHistory now, now⟩

/-- The plain-text user message appended at lines 95–98 of
`telegram_bot_app.py`. -/
def userMsg (s : String) : ChatMsg := ⟨"user", [.text (.plain s)]⟩

/-- The final model reply appended at lines 109–112 of
`telegram_bot_app.py`. -/
def modelMsg (s : String) : ChatMsg := ⟨"model", [.text (.plain s)]⟩

/-- Method `TelegramBotApp.handle_message` (lines 64–116), state part only: first
`get_history` (also used for the reset notice), append of the user message,
second `get_history` whose result feeds the engine, engine run, and append
of the final reply.  The four `datetime.now()` readings are the explicit
instants `t1 ≤ t2 ≤ t3 ≤ t4`; Telegram I/O is dropped.  Returns the reply
text and the final store. -/
def handleMessage (lifetime t1 t2 t3 t4 : ℚ) (maxIter : ℕ)
    (backend : ℕ → List ChatMsg → BackendEff) (toolExec : FunctionCall → String)
    (uid : ℕ) (userText : String) (st : ConvState) : String × ConvState :=
  let r1 := getHistory lifetime t1 uid st
  let st2 := updateHistory t2 uid (userMsg userText) r1.2
  let r2 := getHistory lifetime t3 uid st2
  let reply := (getGeminiResponseWithTools maxIter backend toolExec r2.1).1
  (reply, updateHistory t4 uid (modelMsg reply) r2.2)

/-- A history in good shape: it starts with a system-context message
generated at some time, followed by the fixed acknowledgement. -/
def goodHistory (h : List ChatMsg) : Prop :=
  ∃ t rest, h = generateSystemPrompt t :: systemPromptResponse :: rest

/-- Store invariant: every existing session has a good history. -/
def ConvInv (st : ConvState) : Prop :=
  ∀ uid sess, st uid = some sess → goodHistory sess.history

/-! Concrete instances used to exercise the theorems. -/

/-- The store with no sessions. -/
def stEmpty : ConvState := fun _ => none

/-- A store with one stale session for user 7. -/
def stStale : ConvState :=
  fun u => if u = 7 then some ⟨[userMsg "старое сообщение"], 0⟩ else none

/-- A store with one fresh, well-formed session for user 1. -/
def stFresh : ConvState :=
  fun u =>
    if u = 1 then
      some ⟨[generateSystemPrompt 0, systemPromptResponse, userMsg "вопрос"], 50⟩
    else none

/-- A response whose only part is a tool call. -/
def respTool : GeminiResponse :=
  ⟨[⟨some ⟨[⟨some ⟨"list_calendar_events", []⟩, none⟩]⟩⟩]⟩

/-- A backend stub that always requests a tool call. -/
def backendAllTools : ℕ → List ChatMsg → BackendEff :=
  fun _ _ => .returns (some respTool)

/-- A response whose first part of the first candidate has neither a
`functionCall` nor a `text` field, while a later part and a later candidate
both carry text. -/
def respMalformedFirst : GeminiResponse :=
  ⟨[⟨some ⟨[⟨none, none⟩, ⟨none, some "текст во второй части"⟩]⟩⟩,
    ⟨some ⟨[⟨none, some "текст во втором кандидате"⟩]⟩⟩]⟩

/-- A backend stub serving `respMalformedFirst`. -/
def backendMalformedFirst : ℕ → List ChatMsg → BackendEff :=
  fun _ _ => .returns (some respMalformedFirst)

/-- A plain-text response. -/
def respText (s : String) : GeminiResponse := ⟨[⟨some ⟨[⟨none, some s⟩]⟩⟩]⟩

/-- A backend stub that immediately answers with text. -/
def backendText : ℕ → List ChatMsg → BackendEff :=
  fun _ _ => .returns (some (respText "Готово."))

/-- A tool executor stub. -/
def toolExecStub : FunctionCall → String := fun _ => "ок"

/-- An HTTP stub failing twice with 503 and then succeeding. -/
def httpFailTwice : ℕ → HttpResult :=
  fun i => if i < 2 then .httpError 503 else .success none

/-- An HTTP stub that always returns 400. -/
def httpAlways400 : ℕ → HttpResult := fun _ => .httpError 400

/-- A registry stub with one succeeding and one raising implementation. -/
def toolsStub : String → Option (ArgsMap → ToolOutcome) :=
  fun n =>
    if n = "create_calendar_event" then some fun _ => .ok "Событие создано."
    else if n = "boom" then some fun _ => .raises "деление на ноль"
    else none

/-! Helper lemmas about the session store. -/

lemma setUser_self (st : ConvState) (uid : ℕ) (s : Session) :
    setUser st uid s uid = some s := by
  simp [setUser]

lemma setUser_other (st : ConvState) (uid u : ℕ) (s : Session) (h : u ≠ uid) :
    setUser st uid s u = st u := by
  simp [setUser, h]

lemma goodHistory_initial (now : ℚ) : goodHistory (getInitialHistory now) :=
  ⟨now, [], rfl⟩

lemma goodHistory_append (l : List ChatMsg) (m : ChatMsg) (h : goodHistory l) :
    goodHistory (l ++ [m]) := by
  obtain ⟨t, rest, rfl⟩ := h
  exact ⟨t, rest ++ [m], by simp⟩

lemma getHistory_snd_eq (lifetime now : ℚ) (uid : ℕ) (st : ConvState) :
    (getHistory lifetime now uid st).2 =
      setUser st uid ⟨(getHistory lifetime now uid st).1, now⟩ := by
  unfold getHistory
  cases st uid <;> rfl

lemma getHistory_stores (lifetime now : ℚ) (uid : ℕ) (st : ConvState) :
    (getHistory lifetime now uid st).2 uid =
      some ⟨(getHistory lifetime now uid st).1, now⟩ := by
  rw [getHistory_snd_eq, setUser_self]

lemma getHistory_good (lifetime now : ℚ) (uid : ℕ) (st : ConvState)
    (hinv : ConvInv st) : goodHistory (getHistory lifetime now uid st).1 := by
  unfold getHistory
  cases hu : st uid with
  | none => exact goodHistory_initial now
  | some sess =>
    simp only
    split
    · exact goodHistory_initial now
    · obtain ⟨t, rest, hh⟩ := hinv uid sess hu
      exact ⟨now, rest, by rw [hh]; rfl⟩

lemma convInv_setUser (st : ConvState) (uid : ℕ) (s : Session)
    (hinv : ConvInv st) (hgood : goodHistory s.history) :
    ConvInv (setUser st uid s) := by
  intro u sess h
  by_cases hu : u = uid
  · subst hu
    rw [setUser_self] at h
    cases h
    exact hgood
  · rw [setUser_other st uid u s hu] at h
    exact hinv u sess h

lemma convInv_getHistory (lifetime now : ℚ) (uid : ℕ) (st : ConvState)
    (hinv : ConvInv st) : ConvInv (getHistory lifetime now uid st).2 := by
  rw [getHistory_snd_eq]
  exact convInv_setUser st uid _ hinv (getHistory_good lifetime now uid st hinv)

lemma convInv_updateHistory (now : ℚ) (uid : ℕ) (msg : ChatMsg) (st : ConvState)
    (hinv : ConvInv st) : ConvInv (updateHistory now uid msg st) := by
  unfold updateHistory
  cases hu : st uid with
  | none =>
    exact convInv_setUser st uid _ hinv
      (goodHistory_append _ msg (goodHistory_initial now))
  | some sess =>
    exact convInv_setUser st uid _ hinv
      (goodHistory_append _ msg (hinv uid sess hu))

lemma convInv_resetHistory (now : ℚ) (uid : ℕ) (st : ConvState)
    (hinv : ConvInv st) : ConvInv (resetHistory now uid st) :=
  convInv_setUser st uid _ hinv (goodHistory_initial now)

lemma convInv_stEmpty : ConvInv stEmpty := fun _ _ h => Option.noConfusion h

/-- Claim C3: for every session whose idle time exceeds the configured
lifetime, the next `get_history` call returns a history of exactly length 2,
namely a freshly generated system-context message and its acknowledgement,
regardless of the prior history. -/
theorem idle_expiry_resets (lifetime now : ℚ) (uid : ℕ) (st : ConvState)
    (sess : Session) (hex : st uid = some sess)
    (hidle : lifetime < now - sess.lastActive) :
    (getHistory lifetime now uid st).1 =
      [generateSystemPrompt now, systemPromptResponse] ∧
    ((getHistory lifetime now uid st).1).length = 2 := by
  unfold getHistory
  rw [hex]
  simp [hidle, getInitialHistory]

theorem idle_expiry_resets_witness :
    (getHistory 30 100 7 stStale).1 =
      [generateSystemPrompt 100, systemPromptResponse] ∧
    ((getHistory 30 100 7 stStale).1).length = 2 :=
  idle_expiry_resets 30 100 7 stStale ⟨[userMsg "старое сообщение"], 0⟩ rfl (by norm_num)

/-- Claim C7: for an existing session that has not idled out, `get_history`
replaces only the entry at index 0 with a freshly generated system-context
message, leaving every other entry (and the length) unchanged; and on every
branch, for every starting store, it sets the session's `last_active` to the
current time. -/
theorem get_history_in_place_update (lifetime now : ℚ) (uid : ℕ)
    (st : ConvState) (sess : Session) (hex : st uid = some sess)
    (hfresh : now - sess.lastActive ≤ lifetime) :
    (getHistory lifetime now uid st).1 =
      sess.history.set 0 (generateSystemPrompt now) ∧
    ((getHistory lifetime now uid st).1).length = sess.history.length ∧
    (∀ i, i ≠ 0 → ((getHistory lifetime now uid st).1)[i]? = sess.history[i]?) ∧
    (0 < sess.history.length →
      ((getHistory lifetime now uid st).1)[0]? = some (generateSystemPrompt now)) ∧
    (∀ st' : ConvState, ∃ h,
      (getHistory lifetime now uid st').2 uid = some ⟨h, now⟩) := by
  have hmain : (getHistory lifetime now uid st).1 =
      sess.history.set 0 (generateSystemPrompt now) := by
    unfold getHistory
    rw [hex]
    simp [not_lt.mpr hfresh]
  refine ⟨hmain, ?_, ?_, ?_, ?_⟩
  · rw [hmain, List.length_set]
  · intro i hi
    rw [hmain]
    exact List.getElem?_set_ne (Ne.symm hi)
  · intro hlen
    rw [hmain]
    rw [List.getElem?_set_self hlen]
  · intro st'
    exact ⟨_, getHistory_stores lifetime now uid st'⟩

theorem get_history_in_place_update_witness :
    (getHistory 30 60 1 stFresh).1 =
      ([generateSystemPrompt 0, systemPromptResponse, userMsg "вопрос"]).set 0
        (generateSystemPrompt 60) ∧
    ((getHistory 30 60 1 stFresh).1).length =
      ([generateSystemPrompt 0, systemPromptResponse, userMsg "вопрос"] : List ChatMsg).length ∧
    (∀ i, i ≠ 0 → ((getHistory 30 60 1 stFresh).1)[i]? =
      ([generateSystemPrompt 0, systemPromptResponse, userMsg "вопрос"] : List ChatMsg)[i]?) ∧
    (0 < ([generateSystemPrompt 0, systemPromptResponse, userMsg "вопрос"] : List ChatMsg).length →
      ((getHistory 30 60 1 stFresh).1)[0]? = some (generateSystemPrompt 60)) ∧
    (∀ st' : ConvState, ∃ h, (getHistory 30 60 1 st').2 1 = some ⟨h, 60⟩) :=
  get_history_in_place_update 30 60 1 stFresh
    ⟨[generateSystemPrompt 0, systemPromptResponse, userMsg "вопрос"], 50⟩
    rfl (by norm_num)

/-- Claim C8: the store invariant — a session's history is never empty, its
first entry is a system-context message with role `user` and its second
entry is the fixed acknowledgement with role `model` — is preserved by
`get_history`, `update_history` and `reset_history`. -/
theorem store_history_invariant (st : ConvState) (hinv : ConvInv st) :
    (∀ lifetime now uid, ConvInv (getHistory lifetime now uid st).2) ∧
    (∀ now uid msg, ConvInv (updateHistory now uid msg st)) ∧
    (∀ now uid, ConvInv (resetHistory now uid st)) ∧
    (∀ uid sess, st uid = some sess →
      sess.history ≠ [] ∧
      (∃ t, sess.history[0]? = some (generateSystemPrompt t) ∧
        (generateSystemPrompt t).role = "user") ∧
      sess.history[1]? = some systemPromptResponse ∧
      systemPromptResponse.role = "model") := by
  refine ⟨fun l n u => convInv_getHistory l n u st hinv,
          fun n u m => convInv_updateHistory n u m st hinv,
          fun n u => convInv_resetHistory n u st hinv,
          fun u sess hu => ?_⟩
  obtain ⟨t, rest, hh⟩ := hinv u sess hu
  rw [hh]
  exact ⟨by simp, ⟨t, by simp, rfl⟩, by simp, rfl⟩

theorem store_history_invariant_witness :
    (∀ lifetime now uid, ConvInv (getHistory lifetime now uid stEmpty).2) ∧
    (∀ now uid msg, ConvInv (updateHistory now uid msg stEmpty)) ∧
    (∀ now uid, ConvInv (resetHistory now uid stEmpty)) ∧
    (∀ uid sess, stEmpty uid = some sess →
      sess.history ≠ [] ∧
      (∃ t, sess.history[0]? = some (generateSystemPrompt t) ∧
        (generateSystemPrompt t).role = "user") ∧
      sess.history[1]? = some systemPromptResponse ∧
      systemPromptResponse.role = "model") :=
  store_history_invariant stEmpty convInv_stEmpty

/-- Claim C9: two consecutive `reset_history` calls at distinct timestamps
each leave a history of exactly length 2 seeded with a freshly generated
system-context message, and the two system-context messages differ because
of the embedded timestamp. -/
theorem reset_twice_fresh_prompts (t1 t2 : ℚ) (hne : t1 ≠ t2) (uid : ℕ)
    (st : ConvState) :
    (resetHistory t1 uid st) uid =
      some ⟨[generateSystemPrompt t1, systemPromptResponse], t1⟩ ∧
    (resetHistory t2 uid (resetHistory t1 uid st)) uid =
      some ⟨[generateSystemPrompt t2, systemPromptResponse], t2⟩ ∧
    ([generateSystemPrompt t1, systemPromptResponse] : List ChatMsg).length = 2 ∧
    generateSystemPrompt t1 ≠ generateSystemPrompt t2 := by
  refine ⟨?_, ?_, rfl, ?_⟩
  · rw [resetHistory, setUser_self]
    rfl
  · rw [resetHistory, setUser_self]
    rfl
  · intro h
    apply hne
    simpa [generateSystemPrompt] using h

theorem reset_twice_fresh_prompts_witness :
    (resetHistory 5 3 stEmpty) 3 =
      some ⟨[generateSystemPrompt 5, systemPromptResponse], 5⟩ ∧
    (resetHistory 6 3 (resetHistory 5 3 stEmpty)) 3 =
      some ⟨[generateSystemPrompt 6, systemPromptResponse], 6⟩ ∧
    ([generateSystemPrompt 5, systemPromptResponse] : List ChatMsg).length = 2 ∧
    generateSystemPrompt 5 ≠ generateSystemPrompt 6 :=
  reset_twice_fresh_prompts 5 6 (by norm_num) 3 stEmpty

/-! Helper lemma for the iteration bound. -/

lemma maxIterationsMsg_ne_empty : maxIterationsMsg ≠ "" := by decide

lemma unintelligibleMsg_ne_empty : unintelligibleMsg ≠ "" := by decide

lemma engineLoop_all_tool (backend : ℕ → List ChatMsg → BackendEff)
    (toolExec : FunctionCall → String)
    (hb : ∀ i h, ∃ r fc, backend i h = .returns (some r) ∧ classify r = .toolCall fc) :
    ∀ fuel calls hist,
      engineLoop backend toolExec fuel calls hist = (maxIterationsMsg, calls + fuel) := by
  intro fuel
  induction fuel with
  | zero =>
    intro calls hist
    simp [engineLoop]
  | succ n ih =>
    intro calls hist
    obtain ⟨r, fc, hr, hc⟩ := hb calls hist
    simp only [engineLoop, hr, hc, ih]
    have harith : calls + 1 + n = calls + (n + 1) := by omega
    rw [harith]

/-- Claim C1: with a backend that always returns a tool-call response and
never raises, `get_gemini_response_with_tools` makes exactly
`max_tool_call_iterations` backend calls and returns the fixed fallback
message. -/
theorem iteration_bound (maxIter : ℕ) (backend : ℕ → List ChatMsg → BackendEff)
    (toolExec : FunctionCall → String) (hist : List ChatMsg)
    (hb : ∀ i h, ∃ r fc, backend i h = .returns (some r) ∧ classify r = .toolCall fc) :
    getGeminiResponseWithTools maxIter backend toolExec hist =
      (maxIterationsMsg, maxIter) := by
  simp only [getGeminiResponseWithTools,
    engineLoop_all_tool backend toolExec hb maxIter 0 hist]
  rw [if_neg maxIterationsMsg_ne_empty]
  norm_num

theorem iteration_bound_witness :
    getGeminiResponseWithTools 5 backendAllTools toolExecStub [] =
      (maxIterationsMsg, 5) :=
  iteration_bound 5 backendAllTools toolExecStub []
    (fun _ _ => ⟨respTool, ⟨"list_calendar_events", []⟩, rfl, rfl⟩)

/-- Claim C10: the loop classifies a response by the first part of the first
candidate only — if that part carries neither a `functionCall` nor a `text`
field, the loop ends immediately with the fixed unintelligible-response
message after a single backend call, whatever the later parts and later
candidates contain. -/
theorem first_part_only_classification (maxIter : ℕ)
    (backend : ℕ → List ChatMsg → BackendEff) (toolExec : FunctionCall → String)
    (hist : List ChatMsg) (r : GeminiResponse) (c0 : Candidate)
    (cs : List Candidate) (ct : Content) (p0 : RespPart) (ps : List RespPart)
    (hiter : 0 < maxIter) (hb : backend 0 hist = .returns (some r))
    (hc : r.candidates = c0 :: cs) (hct : c0.content = some ct)
    (hp : ct.parts = p0 :: ps) (hfc : p0.functionCall = none)
    (htx : p0.text = none) :
    getGeminiResponseWithTools maxIter backend toolExec hist =
      (unintelligibleMsg, 1) := by
  obtain ⟨n, rfl⟩ : ∃ n, maxIter = n + 1 := ⟨maxIter - 1, by omega⟩
  have hclass : classify r = .malformed := by
    simp only [classify, hc, hct, hp, hfc, htx]
  simp only [getGeminiResponseWithTools, engineLoop, hb, hclass]
  rw [if_neg unintelligibleMsg_ne_empty]

theorem first_part_only_classification_witness :
    getGeminiResponseWithTools 5 backendMalformedFirst toolExecStub [] =
      (unintelligibleMsg, 1) :=
  first_part_only_classification 5 backendMalformedFirst toolExecStub []
    respMalformedFirst
    ⟨some ⟨[⟨none, none⟩, ⟨none, some "текст во второй части"⟩]⟩⟩
    [⟨some ⟨[⟨none, some "текст во втором кандидате"⟩]⟩⟩]
    ⟨[⟨none, none⟩, ⟨none, some "текст во второй части"⟩]⟩
    ⟨none, none⟩ [⟨none, some "текст во второй части"⟩]
    (by norm_num) rfl rfl rfl rfl rfl rfl

/-! Helper lemma for the retry loop. -/

lemma callGeminiApiAux_retry (http : ℕ → HttpResult) (base : ℚ)
    (resp : Option GeminiResponse) :
    ∀ k a r, k < r →
      (∀ i, i < k → ∃ s, http (a + i) = .httpError s ∧ (500 ≤ s ∨ s = 429)) →
      http (a + k) = .success resp →
      callGeminiApiAux http base a r =
        ⟨.ok resp, k + 1, k, ∑ i ∈ Finset.range k, base * 2 ^ (a + i)⟩ := by
  intro k
  induction k with
  | zero =>
    intro a r hr hfail hsucc
    obtain ⟨r', rfl⟩ : ∃ r', r = r' + 1 := ⟨r - 1, by omega⟩
    rw [Nat.add_zero] at hsucc
    simp only [callGeminiApiAux, hsucc]
    simp
  | succ k ih =>
    intro a r hr hfail hsucc
    obtain ⟨r', rfl⟩ : ∃ r', r = r' + 1 := ⟨r - 1, by omega⟩
    obtain ⟨s, hs, hsr⟩ := hfail 0 (by omega)
    rw [Nat.add_zero] at hs
    have hr' : 0 < r' := by omega
    have hrec := ih (a + 1) r' (by omega)
      (fun i hi => by
        obtain ⟨s', hs', hsr'⟩ := hfail (i + 1) (by omega)
        exact ⟨s', by rwa [show a + 1 + i = a + (i + 1) by omega], hsr'⟩)
      (by rwa [show a + 1 + k = a + (k + 1) by omega])
    simp only [callGeminiApiAux, hs, if_pos hsr, if_pos hr', hrec]
    have hsum : base * 2 ^ a + ∑ i ∈ Finset.range k, base * 2 ^ (a + 1 + i) =
        ∑ i ∈ Finset.range (k + 1), base * 2 ^ (a + i) := by
      have h2 : ∑ i ∈ Finset.range k, base * 2 ^ (a + (i + 1)) =
          ∑ i ∈ Finset.range k, base * 2 ^ (a + 1 + i) :=
        Finset.sum_congr rfl fun i _ => by
          rw [show a + (i + 1) = a + 1 + i from by omega]
      rw [Finset.sum_range_succ', h2, Nat.add_zero]
      exact add_comm _ _
    rw [ApiCallTrace.mk.injEq]
    exact ⟨rfl, rfl, rfl, hsum⟩

/-- Claim C4: when the backend fails with retryable HTTP errors (status 5xx
or 429) on the first `k` attempts, `k < max_retries`, and succeeds on the
next attempt, `_call_gemini_api` returns the successful response after
`k + 1` HTTP calls, having slept a total delay of
`∑ i < k, base_delay * 2 ^ i`. -/
theorem retry_backoff_success (http : ℕ → HttpResult) (base : ℚ)
    (maxRetries k : ℕ) (resp : Option GeminiResponse) (hk : k < maxRetries)
    (hfail : ∀ i, i < k → ∃ s, http i = .httpError s ∧ (500 ≤ s ∨ s = 429))
    (hsucc : http k = .success resp) :
    callGeminiApi http base maxRetries =
      ⟨.ok resp, k + 1, k, ∑ i ∈ Finset.range k, base * 2 ^ i⟩ := by
  unfold callGeminiApi
  rw [callGeminiApiAux_retry http base resp k 0 maxRetries hk
    (fun i hi => by simpa using hfail i hi) (by simpa using hsucc)]
  rw [ApiCallTrace.mk.injEq]
  exact ⟨rfl, rfl, rfl, Finset.sum_congr rfl fun i _ => by rw [Nat.zero_add]⟩

theorem retry_backoff_success_witness :
    callGeminiApi httpFailTwice 1 3 = ⟨.ok none, 3, 2, 3⟩ := by
  have h := retry_backoff_success httpFailTwice 1 3 2 none (by norm_num)
    (fun i hi => by
      interval_cases i <;> exact ⟨503, rfl, by norm_num⟩)
    rfl
  rw [h]
  rw [ApiCallTrace.mk.injEq]
  refine ⟨rfl, rfl, rfl, ?_⟩
  rw [Finset.sum_range_succ, Finset.sum_range_succ, Finset.sum_range_zero]
  norm_num

/-- Claim C5: on a non-retryable client error (status < 500 and ≠ 429, e.g.
400), `_call_gemini_api` makes exactly one HTTP call, never sleeps, and
immediately surfaces the error to its caller. -/
theorem client_error_no_retry (http : ℕ → HttpResult) (base : ℚ)
    (maxRetries s : ℕ) (hmax : 0 < maxRetries) (hcall : http 0 = .httpError s)
    (hlt : s < 500) (h429 : s ≠ 429) :
    callGeminiApi http base maxRetries = ⟨.error (.http s), 1, 0, 0⟩ := by
  obtain ⟨r, rfl⟩ : ∃ r, maxRetries = r + 1 := ⟨maxRetries - 1, by omega⟩
  unfold callGeminiApi
  simp only [callGeminiApiAux, hcall]
  rw [if_neg (by
    rintro (h5 | h4)
    · omega
    · exact h429 h4)]

theorem client_error_no_retry_witness :
    callGeminiApi httpAlways400 1 3 = ⟨.error (.http 400), 1, 0, 0⟩ :=
  client_error_no_retry httpAlways400 1 3 400 (by norm_num) rfl (by norm_num)
    (by norm_num)

/-- Claim C6: `execute_tool` is total towards its caller — an unregistered
name yields the textual unknown-tool result, an implementation that raises
yields a textual error embedding the exception description, and a successful
result is returned verbatim. -/
theorem execute_tool_never_raises (tools : String → Option (ArgsMap → ToolOutcome))
    (name : String) (args : ArgsMap) :
    (tools name = none → executeTool tools name args = unknownToolMsg name) ∧
    (∀ f e, tools name = some f → f args = .raises e →
      executeTool tools name args = toolErrorMsg name e) ∧
    (∀ f r, tools name = some f → f args = .ok r →
      executeTool tools name args = r) := by
  refine ⟨fun h => ?_, fun f e hf he => ?_, fun f r hf hr => ?_⟩
  · simp only [executeTool, h]
  · simp only [executeTool, hf, he]
  · simp only [executeTool, hf, hr]

theorem execute_tool_never_raises_witness :
    executeTool toolsStub "unknown_tool" [] = unknownToolMsg "unknown_tool" ∧
    executeTool toolsStub "boom" [] = toolErrorMsg "boom" "деление на ноль" ∧
    executeTool toolsStub "create_calendar_event" [("summary", "Standup")] =
      "Событие создано." :=
  ⟨(execute_tool_never_raises toolsStub "unknown_tool" []).1 rfl,
   (execute_tool_never_raises toolsStub "boom" []).2.1 _ _ rfl rfl,
   (execute_tool_never_raises toolsStub "create_calendar_event"
      [("summary", "Standup")]).2.2 _ _ rfl rfl⟩

/-! Helper lemmas for the per-turn pipeline. -/

lemma updateHistory_at (now : ℚ) (uid : ℕ) (msg : ChatMsg) (st : ConvState)
    (sess : Session) (h : st uid = some sess) :
    updateHistory now uid msg st uid = some ⟨sess.history ++ [msg], now⟩ := by
  simp only [updateHistory, h, setUser_self]

lemma getHistory_fst_fresh (lifetime now : ℚ) (uid : ℕ) (st : ConvState)
    (sess : Session) (h : st uid = some sess)
    (hfr : now - sess.lastActive ≤ lifetime) :
    (getHistory lifetime now uid st).1 =
      sess.history.set 0 (generateSystemPrompt now) := by
  unfold getHistory
  rw [h]
  simp [not_lt.mpr hfr]

lemma getLast?_append_pair {α : Type} (l : List α) (a b : α) :
    (l ++ [a, b]).getLast? = some b := by
  rw [show l ++ [a, b] = (l ++ [a]) ++ [b] by simp]
  exact List.getLast?_concat _

/-- Claim C2: a completed user turn changes the durable per-user history only
by appending the user's message and then the final text reply (the reply
last), on top of the pre-loop history whose system-context entry is merely
regenerated in place; none of the intermediate tool-call or tool-result
messages built inside the engine loop is ever written back to the store. -/
theorem handle_message_frame (lifetime t1 t2 t3 t4 : ℚ) (maxIter : ℕ)
    (backend : ℕ → List ChatMsg → BackendEff) (toolExec : FunctionCall → String)
    (uid : ℕ) (userText : String) (st : ConvState)
    (hinv : ConvInv st) (hfresh : t3 - t2 ≤ lifetime) :
    (handleMessage lifetime t1 t2 t3 t4 maxIter backend toolExec uid userText st).2 uid =
      some ⟨((getHistory lifetime t1 uid st).1).set 0 (generateSystemPrompt t3) ++
          [userMsg userText,
           modelMsg (handleMessage lifetime t1 t2 t3 t4 maxIter backend toolExec uid userText st).1],
        t4⟩ ∧
    ∃ hist,
      (handleMessage lifetime t1 t2 t3 t4 maxIter backend toolExec uid userText st).2 uid =
        some ⟨hist, t4⟩ ∧
      hist.length = ((getHistory lifetime t1 uid st).1).length + 2 ∧
      hist.getLast? =
        some (modelMsg
          (handleMessage lifetime t1 t2 t3 t4 maxIter backend toolExec uid userText st).1) := by
  obtain ⟨tp, rest, hh1⟩ := getHistory_good lifetime t1 uid st hinv
  have hst1 : (getHistory lifetime t1 uid st).2 uid =
      some ⟨(getHistory lifetime t1 uid st).1, t1⟩ :=
    getHistory_stores lifetime t1 uid st
  have hst2 : updateHistory t2 uid (userMsg userText)
      (getHistory lifetime t1 uid st).2 uid =
      some ⟨(getHistory lifetime t1 uid st).1 ++ [userMsg userText], t2⟩ :=
    updateHistory_at t2 uid (userMsg userText) _ _ hst1
  have hr2fst : (getHistory lifetime t3 uid
        (updateHistory t2 uid (userMsg userText) (getHistory lifetime t1 uid st).2)).1 =
      ((getHistory lifetime t1 uid st).1 ++ [userMsg userText]).set 0
        (generateSystemPrompt t3) :=
    getHistory_fst_fresh lifetime t3 uid _ _ hst2 hfresh
  have hr2snd : (getHistory lifetime t3 uid
        (updateHistory t2 uid (userMsg userText) (getHistory lifetime t1 uid st).2)).2 uid =
      some ⟨(getHistory lifetime t3 uid
        (updateHistory t2 uid (userMsg userText) (getHistory lifetime t1 uid st).2)).1, t3⟩ :=
    getHistory_stores _ _ _ _
  have hmain : (handleMessage lifetime t1 t2 t3 t4 maxIter backend toolExec uid userText st).2 uid =
      some ⟨((getHistory lifetime t1 uid st).1).set 0 (generateSystemPrompt t3) ++
          [userMsg userText,
           modelMsg (handleMessage lifetime t1 t2 t3 t4 maxIter backend toolExec uid userText st).1],
        t4⟩ := by
    simp only [handleMessage]
    rw [updateHistory_at t4 uid _ _ _ hr2snd]
    rw [hr2fst, hh1]
    simp [List.append_assoc]
  refine ⟨hmain, _, hmain, ?_, ?_⟩
  · rw [hh1]
    simp
  · exact getLast?_append_pair _ _ _

theorem handle_message_frame_witness :
    (handleMessage 30 0 0 0 0 5 backendText toolExecStub 9 "привет" stEmpty).2 9 =
      some ⟨((getHistory 30 0 9 stEmpty).1).set 0 (generateSystemPrompt 0) ++
          [userMsg "привет",
           modelMsg (handleMessage 30 0 0 0 0 5 backendText toolExecStub 9 "привет" stEmpty).1],
        0⟩ ∧
    ∃ hist,
      (handleMessage 30 0 0 0 0 5 backendText toolExecStub 9 "привет" stEmpty).2 9 =
        some ⟨hist, 0⟩ ∧
      hist.length = ((getHistory 30 0 9 stEmpty).1).length + 2 ∧
      hist.getLast? =
        some (modelMsg
          (handleMessage 30 0 0 0 0 5 backendText toolExecStub 9 "привет" stEmpty).1) :=
  handle_message_frame 30 0 0 0 0 5 backendText toolExecStub 9 "привет" stEmpty
    convInv_stEmpty (by norm_num)
